import Mathlib

/-!
# Verification of the neogo entity-mapping core

Shallow embedding of the tag/label extraction (`src/internal/tags.go`), the
property serializer (`src/props.go`) and the locale synchronization hooks
(`src/hooks.go`) of the neogo repository, together with theorems settling the
specification claims about them.

Conventions of the embedding:
* Go struct types are modelled only through the parts the algorithms inspect:
  a `GoType` is a type name plus the ordered list of its anonymously embedded
  struct fields, each carrying the optional raw value of its neo4j tag.
* Property values are modelled by `PVal` (string leaves, structs, pointers);
  `reflect.Value.IsZero` becomes `PVal.isZero`.
* Locale-bearing field pairs are modelled per pair: the base field is a Go
  `string` or `*string` (`GoStr`), the companion a locale struct or pointer to
  one (`GoLoc`), a locale struct being its declaration-ordered list of
  (field name, string value) pairs.
* Go maps are modelled as association lists (first match wins); a `nil` Go
  value inside a `map[string]any` is modelled as `Option.none`.
* `panic` is modelled as `Except.error`.
-/

namespace Neogo

/-! ## Tag and label extraction (`src/internal/tags.go`) -/

/-- `strings.Split(s, ",")`, specialised to the comma separator used by the
tag grammar: splits into comma-separated segments, never returning an empty
list (`""` splits to `[""]`, like Go). -/
def splitCommaAux : List Char → List Char → List String
  | [], acc => [String.mk acc.reverse]
  | c :: cs, acc =>
      if c = ',' then String.mk acc.reverse :: splitCommaAux cs []
      else splitCommaAux cs (c :: acc)

/-- `strings.Split(s, ",")`. -/
def splitComma (s : String) : List String := splitCommaAux s.data []

/-- `strings.Split(label, ",")[0]`: the first comma-separated segment. -/
def firstSeg (s : String) : String := (splitComma s).headI

/-- One discovered graph label or relationship-type token: `neo4jName` from
`tags.go` (`{name string; concrete bool}`). -/
structure neo4jName where
  name : String
  concrete : Bool
deriving Repr, DecidableEq

/-- A Go struct type as seen by the label extractor: its type name and its
anonymously embedded struct fields in declaration order, each with the raw
value of its `neo4j` tag when present.  Non-embedded fields and embedded
non-struct fields never contribute labels and are omitted. -/
inductive GoType where
  | mk (name : String) (embeds : List (Option String × GoType))

/-- The name of the Go type (`reflect.Type.Name()`). -/
def GoType.name : GoType → String
  | .mk n _ => n

/-- The anonymously embedded struct fields of the type. -/
def GoType.embeds : GoType → List (Option String × GoType)
  | .mk _ es => es

/-- `extractTagFromMatch` for one embedded field that does carry a tag:
the label name is the first comma segment, and the label is concrete unless
the embedded field's type is the abstract marker type named `"Label"`. -/
def tagOfEmbed (tag : String) (sub : GoType) : neo4jName :=
  { name := firstSeg tag, concrete := sub.name != "Label" }

theorem embeds_sizes_lt (es : List (Option String × GoType)) :
    ((es.map (fun e => e.2)).map sizeOf).sum < sizeOf es := by
  induction es with
  | nil => simp
  | cons e es ih =>
    obtain ⟨a, b⟩ := e
    simp only [List.map_cons, List.sum_cons, List.cons.sizeOf_spec, Prod.mk.sizeOf_spec]
    omega

/-- The queue loop of `extractNeo4JName`: breadth-first traversal of the
anonymous composition graph, recording each tagged embedded field in
discovered order and enqueueing every embedded struct type. -/
def bfsTags : List GoType → List neo4jName
  | [] => []
  | .mk _ es :: rest =>
      (es.filterMap fun e => e.1.map fun tg => tagOfEmbed tg e.2)
        ++ bfsTags (rest ++ es.map fun e => e.2)
termination_by q => (q.map sizeOf).sum
decreasing_by
  simp only [List.map_append, List.sum_append, List.map_cons, List.sum_cons,
    GoType.mk.sizeOf_spec]
  have h := embeds_sizes_lt es
  omega

/-- `extractNeo4JName` (the no-explicit-fields path): BFS-discovered tags,
reversed so the most general label comes first. -/
def extractNeo4JName (t : GoType) : List neo4jName :=
  (bfsTags [t]).reverse

/-- `ExtractNodeLabels`: the names of all discovered labels. -/
def ExtractNodeLabels (t : GoType) : List String :=
  (extractNeo4JName t).map (·.name)

/-- `ExtractConcreteNodeLabels`: the source's loop appending only the labels
marked concrete. -/
def ExtractConcreteNodeLabels (t : GoType) : List String :=
  (extractNeo4JName t).foldl (fun out l => if l.concrete then out ++ [l.name] else out) []

/-- The panic message of `ExtractRelationshipType` on an ambiguous type. -/
def relMultiErr : String := "relationships with multiple types are not supported in Neo4J"

/-- `ExtractRelationshipType`: `nil` input yields `""`; more than one
relationship-type tag panics (modelled as `Except.error`); zero tags yields
`""`; otherwise the single tag's name. -/
def ExtractRelationshipType (relationship : Option GoType) : Except String String :=
  match relationship with
  | none => .ok ""
  | some t =>
    let tags := extractNeo4JName t
    if 1 < tags.length then .error relMultiErr
    else
      match tags with
      | [] => .ok ""
      | tg :: _ => .ok tg.name

/-! ## Property tag parsing (`src/internal/tags.go`) -/

/-- `PropTag` from `tags.go`. -/
structure PropTag where
  Name : String
  Flatten : Bool
  Ignore : Bool
  TagKey : String
  RawOpts : List String
deriving Repr, DecidableEq

/-- `ParsePropTag`: split the raw annotation on `,`; the first segment is the
name; a name of `-` sets `Ignore` and short-circuits option parsing;
otherwise the option token `flatten` sets `Flatten`. -/
def ParsePropTag (key raw : String) : PropTag :=
  let parts := splitComma raw
  let name := parts.headI
  let opts := parts.tail
  let t : PropTag := { TagKey := key, Name := name, RawOpts := opts,
                       Flatten := false, Ignore := false }
  if name = "-" then { t with Ignore := true }
  else { t with Flatten := opts.contains "flatten" }

/-! ## Theorems on label / relationship-type extraction -/

/-- C5: Label extraction performs a breadth-first traversal of the
anonymously-composed struct hierarchy collecting each composed type's label
annotation, then reverses the discovered order, so the emitted list is
most-general-first; for every composition chain `A ⊂ B ⊂ C` (`tC` embeds `tB`
embeds `tA`, each link declaring one label, the base type `tA` embedding a
label-free terminal), extraction returns `[A.label, B.label, C.label]` in
base-to-derived order. -/
theorem extractNodeLabels_chain_base_first
    (la lb lc : String) (nA nB nC n0 : String) :
    ExtractNodeLabels
      (.mk nC [(some lc, .mk nB [(some lb, .mk nA [(some la, .mk n0 [])])])])
      = [firstSeg la, firstSeg lb, firstSeg lc] := by
  simp [ExtractNodeLabels, extractNeo4JName, bfsTags, tagOfEmbed]

/-- C6: relationship-type extraction over a type carrying more than one
relationship-type annotation is an error (the source panics) and never
silently picks one of the names; zero annotations yields the empty string
without error, and `nil` input also yields the empty string. -/
theorem extractRelationshipType_multi_err :
    (∀ t : GoType, 1 < (extractNeo4JName t).length →
        ExtractRelationshipType (some t) = .error relMultiErr)
    ∧ (∀ t : GoType, extractNeo4JName t = [] →
        ExtractRelationshipType (some t) = .ok "")
    ∧ ExtractRelationshipType none = .ok "" := by
  refine ⟨fun t h => ?_, fun t h => ?_, rfl⟩
  · simp [ExtractRelationshipType, h]
  · simp [ExtractRelationshipType, h]

/-- Witness for C6: a record composing two distinct relationship-type-tagged
types errors out; a tag-free record and `nil` input yield `""`. -/
theorem extractRelationshipType_multi_err_witness :
    ExtractRelationshipType
      (some (.mk "friendFamily"
        [(some "Friendship", .mk "Relationship" []),
         (some "Family", .mk "Relationship" [])])) = .error relMultiErr
    ∧ ExtractRelationshipType (some (.mk "plain" [])) = .ok ""
    ∧ ExtractRelationshipType none = .ok "" :=
  ⟨extractRelationshipType_multi_err.1 _
      (by simp [extractNeo4JName, bfsTags, tagOfEmbed]),
   extractRelationshipType_multi_err.2.1 _
      (by simp [extractNeo4JName, bfsTags]),
   extractRelationshipType_multi_err.2.2⟩

theorem concreteLabels_foldl_filter (ls : List neo4jName) (acc : List String) :
    ls.foldl (fun out l => if l.concrete then out ++ [l.name] else out) acc
      = acc ++ (ls.filter (·.concrete)).map (·.name) := by
  induction ls generalizing acc with
  | nil => simp
  | cons l ls ih =>
    by_cases h : l.concrete <;> simp [List.filter_cons, h, ih, List.append_assoc]

/-- C10: concrete-label extraction returns exactly the ordered subsequence of
the full label extraction consisting of the labels marked concrete (those
whose contributing embedded type is not the abstract marker type `"Label"`,
per `tagOfEmbed`); in particular it is a sublist of the full label list, in
the same order. -/
theorem extractConcreteNodeLabels_sublist (t : GoType) :
    ExtractConcreteNodeLabels t
        = ((extractNeo4JName t).filter (·.concrete)).map (·.name)
    ∧ (ExtractConcreteNodeLabels t).Sublist (ExtractNodeLabels t) := by
  have h := concreteLabels_foldl_filter (extractNeo4JName t) []
  refine ⟨h, ?_⟩
  rw [ExtractConcreteNodeLabels, h, ExtractNodeLabels]
  simpa using List.Sublist.map (f := neo4jName.name)
    (List.filter_sublist (l := extractNeo4JName t))

/-! ## Theorem on tag parsing -/

/-- C9: for every annotation value whose first comma-separated segment equals
`"-"`, the parsed directive has `Ignore = true` and option parsing is
short-circuited, so `Flatten` remains `false` even when a later segment is the
token `flatten`. -/
theorem parsePropTag_dash_short_circuits (key raw : String)
    (h : (splitComma raw).headI = "-") :
    (ParsePropTag key raw).Ignore = true ∧ (ParsePropTag key raw).Flatten = false := by
  simp [ParsePropTag, h]

/-- Witness for C9: `"-,flatten"` parses to `Ignore = true`, `Flatten = false`. -/
theorem parsePropTag_dash_short_circuits_witness :
    (ParsePropTag "json" "-,flatten").Ignore = true
    ∧ (ParsePropTag "json" "-,flatten").Flatten = false :=
  parsePropTag_dash_short_circuits "json" "-,flatten" (by decide)

/-! ## Property serialization (`src/props.go`) -/

mutual
/-- A Go value as seen by `collectProps`: a string leaf (the representative
primitive kind), a struct, or a pointer. -/
inductive PVal where
  | prim (s : String)
  | strct (fields : List PField)
  | ptr (p : Option PVal)

/-- One struct field as seen by `collectProps`: its identifier, exportedness
(`PkgPath == ""`), anonymity, parsed property tag (`PropTagForField` result,
`none` when neither `db` nor `json` tag is present), whether its static type
resolves through pointers to a struct (`ValidateFlattenType` verdict), and
its value. -/
inductive PField where
  | mk (name : String) (exported : Bool) (anonymous : Bool)
       (tag : Option PropTag) (ftypeStruct : Bool) (value : PVal)
end

mutual
/-- `reflect.Value.IsZero`: `""` for strings, `nil` for pointers, all fields
zero for structs. -/
def PVal.isZero : PVal → Bool
  | .prim s => s == ""
  | .strct fields => PField.allZero fields
  | .ptr none => true
  | .ptr (some _) => false

/-- All fields of a struct are zero. -/
def PField.allZero : List PField → Bool
  | [] => true
  | .mk _ _ _ _ _ v :: fs => v.isZero && PField.allZero fs
end

/-- `fv.Kind() == reflect.Ptr && fv.IsNil()`. -/
def PVal.isNilPtr : PVal → Bool
  | .ptr none => true
  | _ => false

/-- Modelled from the spec: the external `strcase.ToLowerCamel` library used
by `DefaultPropName` is not part of the repository; the spec calls it
"lower-camel-case conversion" of the field identifier, modelled here for the
plain identifiers the claims need as lowercasing the first character. -/
def DefaultPropName (s : String) : String :=
  match s.data with
  | [] => s
  | c :: cs => String.mk (c.toLower :: cs)

/-- `internal.JoinPrefix`: joins a key prefix and a name with `_`, the empty
prefix joining to the bare name. -/
def joinPropName (pre name : String) : String :=
  if pre = "" then name else pre ++ "_" ++ name

/-- The flat property map being produced, in emission order. -/
abbrev Props := List (String × PVal)

/-- `_, exists := props[key]`. -/
def propsHasKey (props : Props) (key : String) : Bool :=
  props.any (fun kv => kv.1 == key)

mutual
/-- `collectProps`: dereference pointers (`derefAll`), do nothing for non-
structs, and fold the struct's fields into the accumulated property map. -/
def collectProps (value : PVal) (pre : String) (props : Props) :
    Except String Props :=
  match value with
  | .ptr none => .ok props
  | .ptr (some v) => collectProps v pre props
  | .prim _ => .ok props
  | .strct fields => collectFields fields pre props

/-- The field loop of `collectProps`, aborting on the first error. -/
def collectFields (fields : List PField) (pre : String) (props : Props) :
    Except String Props :=
  match fields with
  | [] => .ok props
  | f :: fs =>
    match collectField f pre props with
    | .error e => .error e
    | .ok props' => collectFields fs pre props'

/-- One iteration of the field loop of `collectProps`: skip unexported
fields; skip ignored directives; recurse into untagged anonymous fields;
flatten struct-resolving fields that are neither nil nor zero; emit plain
fields that are non-zero, erroring on a duplicate key. -/
def collectField (f : PField) (pre : String) (props : Props) :
    Except String Props :=
  match f with
  | .mk name exported anonymous tag ftypeStruct value =>
    if !exported then .ok props
    else
      match tag with
      | none => if anonymous then collectProps value pre props else .ok props
      | some t =>
        if t.Ignore then .ok props
        else if t.Flatten then
          if !ftypeStruct then .error "flatten field must be struct or pointer-to-struct"
          else if value.isNilPtr then .ok props
          else if value.isZero then .ok props
          else
            let fp := if t.Name = "" then DefaultPropName name else t.Name
            collectProps value (joinPropName pre fp) props
        else if value.isZero then .ok props
        else
          let nm := if t.Name = "" then DefaultPropName name else t.Name
          let key := joinPropName pre nm
          if propsHasKey props key then
            .error ("duplicate property key: " ++ key)
          else .ok (props ++ [(key, value)])
end

/-- All values in a produced property map are non-zero. -/
def propsNonZero (props : Props) : Prop :=
  ∀ kv ∈ props, kv.2.isZero = false

/-- Appending one non-zero entry preserves the all-non-zero invariant. -/
theorem propsAppendNonZero {props out : Props} {key : String} {value : PVal}
    (hp : propsNonZero props) (hz : ¬value.isZero = true)
    (h : (Except.ok (props ++ [(key, value)]) : Except String Props) = .ok out) :
    propsNonZero out := by
  intro kv hkv
  rcases List.mem_append.mp ((Except.ok.inj h) ▸ hkv) with hin | hin
  · exact hp kv hin
  · have hkv2 : kv = (key, value) := List.mem_singleton.mp hin
    rw [hkv2]
    simpa using hz

mutual
theorem collectProps_nonZero (v : PVal) (pre : String) (props out : Props)
    (hp : propsNonZero props) (h : collectProps v pre props = .ok out) :
    propsNonZero out := by
  match v with
  | .ptr none =>
    simp only [collectProps, Except.ok.injEq] at h
    exact h ▸ hp
  | .ptr (some w) =>
    exact collectProps_nonZero w pre props out hp (by simpa [collectProps] using h)
  | .prim s =>
    simp only [collectProps, Except.ok.injEq] at h
    exact h ▸ hp
  | .strct fields =>
    exact collectFields_nonZero fields pre props out hp (by simpa [collectProps] using h)

theorem collectFields_nonZero (fs : List PField) (pre : String) (props out : Props)
    (hp : propsNonZero props) (h : collectFields fs pre props = .ok out) :
    propsNonZero out := by
  match fs with
  | [] =>
    simp only [collectFields, Except.ok.injEq] at h
    exact h ▸ hp
  | f :: fs' =>
    rw [collectFields] at h
    cases hf : collectField f pre props with
    | error e => rw [hf] at h; exact absurd h (by simp)
    | ok props' =>
      rw [hf] at h
      exact collectFields_nonZero fs' pre props' out
        (collectField_nonZero f pre props props' hp hf) h

theorem collectField_nonZero (f : PField) (pre : String) (props out : Props)
    (hp : propsNonZero props) (h : collectField f pre props = .ok out) :
    propsNonZero out := by
  match f with
  | .mk name exported anonymous tag ftypeStruct value =>
    rw [collectField.eq_def] at h
    dsimp only at h
    split at h
    · exact (Except.ok.inj h) ▸ hp
    · split at h
      · split at h
        · exact collectProps_nonZero value pre props out hp h
        · exact (Except.ok.inj h) ▸ hp
      · split at h
        · exact (Except.ok.inj h) ▸ hp
        · split at h
          · split at h
            · exact absurd h (by simp)
            · split at h
              · exact (Except.ok.inj h) ▸ hp
              · split at h
                · exact (Except.ok.inj h) ▸ hp
                · exact collectProps_nonZero value _ props out hp h
          · split at h
            · exact (Except.ok.inj h) ▸ hp
            · rename_i hz
              split at h
              · split at h
                · exact absurd h (by simp)
                · exact propsAppendNonZero hp hz h
              · split at h
                · exact absurd h (by simp)
                · exact propsAppendNonZero hp hz h
end

/-- C7: for every record instance and every field carrying a plain name
directive (no flatten, no ignore), a zero-valued field contributes nothing to
the property map (the field-loop step returns the accumulator unchanged), and
globally the serializer never emits a key holding a zero value: every entry of
the produced flat property map is non-zero. -/
theorem collectProps_never_emits_zero :
    (∀ (name : String) (anonymous ftypeStruct : Bool) (t : PropTag)
        (value : PVal) (pre : String) (props : Props),
        t.Ignore = false → t.Flatten = false → value.isZero = true →
        collectField (.mk name true anonymous (some t) ftypeStruct value) pre props
          = .ok props)
    ∧ (∀ (value : PVal) (pre : String) (out : Props),
        collectProps value pre [] = .ok out →
        ∀ kv ∈ out, kv.2.isZero = false) := by
  constructor
  · intro name anonymous ftypeStruct t value pre props hIg hFl hz
    rw [collectField.eq_def]
    dsimp only
    simp [hIg, hFl, hz]
  · intro value pre out h
    exact collectProps_nonZero value pre [] out (by intro kv hkv; cases hkv) h

/-- Witness for C7: a zero plain field is skipped, and a concrete record with
one zero and one non-zero field serializes to a map whose entries are all
non-zero. -/
theorem collectProps_never_emits_zero_witness :
    collectField
        (.mk "Name" true false
          (some { Name := "name", Flatten := false, Ignore := false,
                  TagKey := "json", RawOpts := [] }) false (.prim "")) "" []
      = .ok []
    ∧ ∀ kv ∈ [("name", PVal.prim "v")], (kv.2).isZero = false :=
  ⟨collectProps_never_emits_zero.1 "Name" false false _ (.prim "") "" [] rfl rfl rfl,
   collectProps_never_emits_zero.2
      (.strct [.mk "Name" true false
                  (some { Name := "name", Flatten := false, Ignore := false,
                          TagKey := "json", RawOpts := [] }) false (.prim "v"),
               .mk "Empty" true false
                  (some { Name := "empty", Flatten := false, Ignore := false,
                          TagKey := "json", RawOpts := [] }) false (.prim "")])
      "" [("name", PVal.prim "v")] rfl⟩

/-- C8: if two fields of a record produce the same joined flat key — either
two plain directives, or a field reached through a flatten prefix colliding
with a plain directive — the serializer returns the fatal mapping-conflict
error rather than overwriting or keeping either value. -/
theorem collectProps_duplicate_key_error :
    (∀ (n1 n2 pre : String) (a1 a2 b1 b2 : Bool) (t1 t2 : PropTag) (v1 v2 : String),
      t1.Ignore = false → t1.Flatten = false → t2.Ignore = false → t2.Flatten = false →
      v1 ≠ "" → v2 ≠ "" →
      joinPropName pre (if t1.Name = "" then DefaultPropName n1 else t1.Name)
        = joinPropName pre (if t2.Name = "" then DefaultPropName n2 else t2.Name) →
      collectProps (.strct [.mk n1 true a1 (some t1) b1 (.prim v1),
                            .mk n2 true a2 (some t2) b2 (.prim v2)]) pre []
        = .error ("duplicate property key: "
            ++ joinPropName pre (if t2.Name = "" then DefaultPropName n2 else t2.Name)))
    ∧ (∀ (nf ni n2 pre : String) (af ai a2 bi b2 : Bool) (tf ti t2 : PropTag) (w v2 : String),
      tf.Ignore = false → tf.Flatten = true →
      ti.Ignore = false → ti.Flatten = false →
      t2.Ignore = false → t2.Flatten = false →
      w ≠ "" → v2 ≠ "" →
      joinPropName (joinPropName pre (if tf.Name = "" then DefaultPropName nf else tf.Name))
          (if ti.Name = "" then DefaultPropName ni else ti.Name)
        = joinPropName pre (if t2.Name = "" then DefaultPropName n2 else t2.Name) →
      collectProps (.strct [.mk nf true af (some tf) true
                              (.strct [.mk ni true ai (some ti) bi (.prim w)]),
                            .mk n2 true a2 (some t2) b2 (.prim v2)]) pre []
        = .error ("duplicate property key: "
            ++ joinPropName pre (if t2.Name = "" then DefaultPropName n2 else t2.Name))) := by
  constructor
  · intro n1 n2 pre a1 a2 b1 b2 t1 t2 v1 v2 hI1 hF1 hI2 hF2 hv1 hv2 hk
    have hz1 : (PVal.prim v1).isZero = false := by simp [PVal.isZero, hv1]
    have hz2 : (PVal.prim v2).isZero = false := by simp [PVal.isZero, hv2]
    simp [collectProps, collectFields, collectField.eq_def, hI1, hF1, hI2, hF2,
      hz1, hz2, propsHasKey, hk]
  · intro nf ni n2 pre af ai a2 bi b2 tf ti t2 w v2 hIf hFf hIi hFi hI2 hF2 hw hv2 hk
    have hzw : (PVal.prim w).isZero = false := by simp [PVal.isZero, hw]
    have hzf : (PVal.strct [.mk ni true ai (some ti) bi (.prim w)]).isZero = false := by
      simp [PVal.isZero, PField.allZero, hw]
    have hz2 : (PVal.prim v2).isZero = false := by simp [PVal.isZero, hv2]
    simp [collectProps, collectFields, collectField.eq_def, hIf, hFf, hIi, hFi, hI2, hF2,
      hzw, hzf, hz2, PVal.isNilPtr, propsHasKey, hk]

/-- Witness for C8: two plain directives both mapping to the flat key `x`
abort serialization with the mapping-conflict error. -/
theorem collectProps_duplicate_key_error_witness :
    collectProps
        (.strct [.mk "A" true false
                    (some { Name := "x", Flatten := false, Ignore := false,
                            TagKey := "db", RawOpts := [] }) false (.prim "1"),
                 .mk "B" true false
                    (some { Name := "x", Flatten := false, Ignore := false,
                            TagKey := "db", RawOpts := [] }) false (.prim "2")]) "" []
      = .error "duplicate property key: x" := by
  have h := collectProps_duplicate_key_error.1 "A" "B" "" false false false false
    { Name := "x", Flatten := false, Ignore := false, TagKey := "db", RawOpts := [] }
    { Name := "x", Flatten := false, Ignore := false, TagKey := "db", RawOpts := [] }
    "1" "2" rfl rfl rfl rfl (by decide) (by decide) (by decide)
  simpa using h

/-! ## Locale synchronization hooks (`src/hooks.go`)

One locale-bearing field pair is modelled explicitly: the base field is a Go
`string` or `*string` (`GoStr`), its companion a locale struct or pointer to
one (`GoLoc`).  A locale struct is its declaration-ordered list of
(field name, string value) pairs; all its fields are exported and settable,
and all values involved are strings, so `assignValue` always succeeds. -/

/-- A locale companion struct: declaration-ordered (field name, value) list. -/
abbrev LocaleStruct := List (String × String)

/-- `reflect.Value.IsZero` on a locale struct: all fields zero. -/
def lsIsZero (l : LocaleStruct) : Bool := l.all (fun f => f.2 == "")

/-- `reflect.Value.FieldByName` on a locale struct. -/
def lsFieldByName (l : LocaleStruct) (nm : String) : Option String :=
  (l.find? (fun f => f.1 == nm)).map (·.2)

/-- Assign to the (first) field with the given name. -/
def lsSetByName : LocaleStruct → String → String → LocaleStruct
  | [], _, _ => []
  | f :: fs, nm, v =>
      if f.1 == nm then (f.1, v) :: fs else f :: lsSetByName fs nm v

/-- `reflect.New(T.Elem())`: the zero value of a locale struct type with the
given field names. -/
def zeroLS (names : List String) : LocaleStruct := names.map (fun n => (n, ""))

/-- The base field of a locale-bearing pair: a Go `string` or a `*string`. -/
inductive GoStr where
  | s (v : String)
  | p (v : Option String)
deriving Repr, DecidableEq

/-- The companion field: a locale struct or a pointer to one. -/
inductive GoLoc where
  | s (v : LocaleStruct)
  | p (v : Option LocaleStruct)
deriving Repr, DecidableEq

/-- `reflect.Value.IsZero` on the companion field as declared (before
dereferencing): a nil pointer is zero, a non-nil pointer is never zero, a
struct is zero iff all its fields are. -/
def GoLoc.isZeroOuter : GoLoc → Bool
  | .s v => lsIsZero v
  | .p o => o.isNone

/-- `firstPreferredLocaleValue`: the first key in preference order whose
companion field exists and is non-zero. -/
def firstPreferredLocaleValue (lv : LocaleStruct) : List String → Option String
  | [] => none
  | k :: ks =>
    match lsFieldByName lv k with
    | some v => if v == "" then firstPreferredLocaleValue lv ks else some v
    | none => firstPreferredLocaleValue lv ks

/-- `setBaseFromLocale`: assign the base from the first preferred non-zero
locale field, falling back to the first non-zero field in declaration order;
returns the new base value and whether an assignment happened. -/
def setBaseFromLocale (bv : String) (lv : LocaleStruct) (keys : List String) :
    String × Bool :=
  match firstPreferredLocaleValue lv keys with
  | some v => (v, true)
  | none =>
    match lv.find? (fun f => !(f.2 == "")) with
    | some f => (f.2, true)
    | none => (bv, false)

/-- The declaration-order fallback loop of `setLocaleFromBase`: assign the
base value into the first zero field. -/
def lsSetFirstZero : LocaleStruct → String → LocaleStruct × Bool
  | [], _ => ([], false)
  | f :: fs, bv =>
      if f.2 == "" then ((f.1, bv) :: fs, true)
      else
        let r := lsSetFirstZero fs bv
        (f :: r.1, r.2)

/-- `setLocaleFromBase`: assign the base value into the first preference-order
key whose field exists and is zero, falling back to the first zero field in
declaration order. -/
def setLocaleFromBase (bv : String) (lv : LocaleStruct) (keys : List String) :
    LocaleStruct × Bool :=
  match keys.find? (fun k => lsFieldByName lv k == some "") with
  | some k => (lsSetByName lv k bv, true)
  | none => lsSetFirstZero lv bv

/-- Rebuild the base field in its original pointer-ness around a new value. -/
def rebuildB (basePtr : Bool) (v : String) : GoStr :=
  if basePtr then .p (some v) else .s v

/-- Rebuild the companion field in its original pointer-ness. -/
def rebuildL (locPtr : Bool) (l : LocaleStruct) : GoLoc :=
  if locPtr then .p (some l) else .s l

/-- The tail of one `localesMarshalHook` loop iteration, after both sides are
dereferenced: zero base takes its value from a non-zero companion, a non-zero
base fills a wholly-zero companion, and otherwise nothing happens. -/
def marshalStep3 (basePtr : Bool) (bv : String) (locPtr : Bool)
    (lv : LocaleStruct) (keys : List String) : GoStr × GoLoc :=
  if bv == "" then
    if lsIsZero lv then (rebuildB basePtr bv, rebuildL locPtr lv)
    else (rebuildB basePtr (setBaseFromLocale bv lv keys).1, rebuildL locPtr lv)
  else if lsIsZero lv then
    (rebuildB basePtr bv, rebuildL locPtr (setLocaleFromBase bv lv keys).1)
  else (rebuildB basePtr bv, rebuildL locPtr lv)

/-- Companion-pointer handling of one `localesMarshalHook` iteration: a nil
companion pointer is left alone when the (dereferenced) base is zero and
allocated otherwise. -/
def marshalStep2 (basePtr : Bool) (bv : String) (loc : GoLoc)
    (locNames keys : List String) : GoStr × GoLoc :=
  match loc with
  | .p none =>
    if bv == "" then (rebuildB basePtr bv, loc)
    else marshalStep3 basePtr bv true (zeroLS locNames) keys
  | .p (some l) => marshalStep3 basePtr bv true l keys
  | .s l => marshalStep3 basePtr bv false l keys

/-- One `localesMarshalHook` loop iteration for one locale-bearing field pair
(base-pointer handling first: a nil base pointer is left alone when the
companion as declared is zero, and allocated otherwise). -/
def localesMarshalPair (base : GoStr) (loc : GoLoc)
    (locNames keys : List String) : GoStr × GoLoc :=
  match base with
  | .p none =>
    if loc.isZeroOuter then (base, loc)
    else marshalStep2 true "" loc locNames keys
  | .p (some v) => marshalStep2 true v loc locNames keys
  | .s v => marshalStep2 false v loc locNames keys

/-- `lcFirst`: lowercase the first character. -/
def lcFirst (s : String) : String :=
  match s.data with
  | [] => s
  | c :: cs => String.mk (c.toLower :: cs)

/-- The raw props map: association list, a `none` value modelling a Go `nil`
inside the `map[string]any`. -/
abbrev RawProps := List (String × Option String)

/-- Go map lookup (`v, ok := props[k]`): outer `none` when the key is absent. -/
def rawLookup (props : RawProps) (k : String) : Option (Option String) :=
  (props.find? (fun kv => kv.1 == k)).map (·.2)

/-- `hasAnyFlatKey`: some preferred key's flat form is present in the props
map (value may be anything, including nil). -/
def hasAnyFlatKey (props : RawProps) (pfx : String) (keys : List String) : Bool :=
  keys.any (fun k => (rawLookup props (pfx ++ "_" ++ lcFirst k)).isSome)

/-- The field loop of `extractFlatLocaleKeys`: for each companion field in
declaration order, look up `<pfx>_<lcFirst(fieldName)>`; a present, non-nil
value is assigned and marks the extraction as found. -/
def extractFields (props : RawProps) (pfx : String) :
    LocaleStruct → LocaleStruct × Bool
  | [] => ([], false)
  | (fn, fv) :: rest =>
    let r := extractFields props pfx rest
    match rawLookup props (pfx ++ "_" ++ lcFirst fn) with
    | none => ((fn, fv) :: r.1, r.2)
    | some none => ((fn, fv) :: r.1, r.2)
    | some (some s) => ((fn, s) :: r.1, true)

/-- `extractFlatLocaleKeys`: derive the flat-key prefix from the base field
name, allocate a nil companion pointer only when some preferred flat key is
present, and populate the companion's fields from the flat keys. -/
def extractFlatLocaleKeys (props : RawProps) (baseName : String) (loc : GoLoc)
    (locNames keys : List String) : GoLoc × Bool :=
  let pfx := lcFirst baseName
  match loc with
  | .p none =>
    if !hasAnyFlatKey props pfx keys then (loc, false)
    else
      let r := extractFields props pfx (zeroLS locNames)
      (.p (some r.1), r.2)
  | .p (some l) =>
    let r := extractFields props pfx l
    (.p (some r.1), r.2)
  | .s l =>
    let r := extractFields props pfx l
    (.s r.1, r.2)

/-- The tail of one `localesUnmarshalHook` loop iteration after both sides
are dereferenced: with flat keys found the companion is authoritative and the
base is always overwritten; without flat keys the base is set from the
companion exactly when the dereferenced base is zero. -/
def unmarshalStep3 (basePtr : Bool) (bv : String) (locPtr : Bool)
    (lv : LocaleStruct) (found : Bool) (keys : List String) : GoStr × GoLoc :=
  if found then
    (rebuildB basePtr (setBaseFromLocale bv lv keys).1, rebuildL locPtr lv)
  else if bv == "" then
    if lsIsZero lv then (rebuildB basePtr bv, rebuildL locPtr lv)
    else (rebuildB basePtr (setBaseFromLocale bv lv keys).1, rebuildL locPtr lv)
  else (rebuildB basePtr bv, rebuildL locPtr lv)

/-- One `localesUnmarshalHook` loop iteration for one locale-bearing field
pair: phase 1 extracts flat locale keys from the raw props map (when the raw
value is a `map[string]any`), phase 2 unwraps the base pointer (allocating it
only for a non-zero companion), unwraps the companion pointer, and syncs
companion into base. -/
def localesUnmarshalPair (props : Option RawProps) (baseName : String)
    (base : GoStr) (loc : GoLoc) (locNames keys : List String) : GoStr × GoLoc :=
  let ex :=
    match props with
    | none => (loc, false)
    | some ps => extractFlatLocaleKeys ps baseName loc locNames keys
  let loc1 := ex.1
  let found := ex.2
  match base with
  | .p none =>
    match loc1 with
    | .p none => (base, loc1)
    | .p (some l) =>
      if lsIsZero l then (base, loc1)
      else unmarshalStep3 true "" true l found keys
    | .s l =>
      if lsIsZero l then (base, loc1)
      else unmarshalStep3 true "" false l found keys
  | .p (some v) =>
    match loc1 with
    | .p none => (base, loc1)
    | .p (some l) => unmarshalStep3 true v true l found keys
    | .s l => unmarshalStep3 true v false l found keys
  | .s v =>
    match loc1 with
    | .p none => (base, loc1)
    | .p (some l) => unmarshalStep3 false v true l found keys
    | .s l => unmarshalStep3 false v false l found keys

/-! ## Theorems on the locale hooks -/

/-- C1 (divergence witness): in the unmarshal hook with no flat locale keys,
a base field that is a non-nil `*string` holding the explicit zero value `""`
is NOT left unchanged: with companion `{EnUS: "Hello"}` the hook overwrites
the base to `"Hello"`, because `localesUnmarshalHook` tests only the
dereferenced value (`bv.IsZero()`) and never distinguishes a non-nil pointer
to zero from a nil pointer.  The claim (and the repository's own test
"unmarshal: non-nil pointer base with empty string NOT overwritten from
locale") requires the base to remain `""`. -/
theorem localesUnmarshalPair_overwrites_explicit_empty_base :
    localesUnmarshalPair none "Name" (.p (some ""))
        (.p (some [("EnUS", "Hello"), ("EnAU", "")])) ["EnUS", "EnAU"] ["EnUS", "EnAU"]
      = (.p (some "Hello"), .p (some [("EnUS", "Hello"), ("EnAU", "")])) := by
  rfl

/-- C2 (divergence witness): in the marshal hook with base an explicit
non-nil `*string` to `""` and companion `{EnUS: "stale", EnAU: "stale"}`, the
companion fields are NOT forced to zero: the code takes the
`baseValue.IsZero()` branch and runs `setBaseFromLocale`, so the base becomes
`"stale"` and the companion is unchanged.  The claim (and the repository's
test "marshal: both non-nil with zero values — locale zeroed from base")
requires both companion fields to become `""`. -/
theorem localesMarshalPair_zero_base_keeps_stale_companion :
    localesMarshalPair (.p (some ""))
        (.p (some [("EnUS", "stale"), ("EnAU", "stale")])) ["EnUS", "EnAU"] ["EnUS", "EnAU"]
      = (.p (some "stale"), .p (some [("EnUS", "stale"), ("EnAU", "stale")])) := by
  rfl

/-- C3 (divergence witness): in the marshal hook with non-zero base
`"Updated"` and non-zero companion `{EnUS: "Stale", EnAU: "Stale"}`, the base
is NOT written into the preferred key and the other keys are NOT zeroed: the
code reaches neither `setLocaleFromBase` (companion is non-zero) nor any
clearing step, leaving both sides untouched, so two locale keys still carry
stale data after marshal.  The claim (and the repository's test "marshal:
non-zero base overwrites stale non-zero locale") requires
`{EnUS: "Updated", EnAU: ""}`. -/
theorem localesMarshalPair_ignores_stale_companion :
    localesMarshalPair (.s "Updated")
        (.p (some [("EnUS", "Stale"), ("EnAU", "Stale")])) ["EnUS", "EnAU"] ["EnUS", "EnAU"]
      = (.s "Updated", .p (some [("EnUS", "Stale"), ("EnAU", "Stale")])) := by
  rfl

/-- The companion struct behind a (possibly pointer) companion field. -/
def locStruct : GoLoc → LocaleStruct
  | .s l => l
  | .p (some l) => l
  | .p none => []

/-- The base field with its value overwritten, keeping its pointer-ness. -/
def baseOverwritten : GoStr → String → GoStr
  | .s _, r => .s r
  | .p _, r => .p (some r)

/-- Modelled from the spec's words, for comparison with `setBaseFromLocale`:
"overwrite the base field using the first locale-key (in preference order)
that holds a non-zero value, falling back to the first non-zero field in
declaration order". -/
def specLocaleResolution (lv : LocaleStruct) (keys : List String) : Option String :=
  (keys.findSome? fun k =>
      (lsFieldByName lv k).bind fun v => if v = "" then none else some v).orElse
    (fun _ => (lv.find? fun f => !(f.2 == "")).map (·.2))

theorem firstPreferred_eq_findSome (lv : LocaleStruct) (keys : List String) :
    firstPreferredLocaleValue lv keys
      = keys.findSome? fun k =>
          (lsFieldByName lv k).bind fun v => if v = "" then none else some v := by
  induction keys with
  | nil => rfl
  | cons k ks ih =>
    rw [firstPreferredLocaleValue, List.findSome?_cons]
    cases h : lsFieldByName lv k with
    | none => simpa using ih
    | some v =>
      by_cases hv : v = ""
      · simpa [hv] using ih
      · simp [hv]

theorem setBaseFromLocale_of_spec (bv : String) (lv : LocaleStruct)
    (keys : List String) (r : String)
    (h : specLocaleResolution lv keys = some r) :
    setBaseFromLocale bv lv keys = (r, true) := by
  rw [specLocaleResolution] at h
  rw [setBaseFromLocale, firstPreferred_eq_findSome]
  cases hf : keys.findSome? fun k =>
      (lsFieldByName lv k).bind fun v => if v = "" then none else some v with
  | some v =>
    rw [hf] at h
    simp only [Option.orElse] at h
    obtain rfl : v = r := by simpa using h
    rfl
  | none =>
    rw [hf] at h
    simp only [Option.orElse] at h
    cases hg : lv.find? fun f => !(f.2 == "") with
    | some fld =>
      rw [hg] at h
      obtain rfl : fld.2 = r := by simpa using h
      rfl
    | none => rw [hg] at h; cases h

theorem specLocaleResolution_nonZero (lv : LocaleStruct) (keys : List String)
    (r : String) (h : specLocaleResolution lv keys = some r) :
    lsIsZero lv = false := by
  by_contra hz
  have hz' : lsIsZero lv = true := by
    cases hq : lsIsZero lv
    · exact absurd hq hz
    · rfl
  have hall : ∀ f ∈ lv, f.2 = "" := by
    intro f hf
    have := List.all_eq_true.mp hz' f hf
    simpa using this
  rw [specLocaleResolution] at h
  have h1 : (keys.findSome? fun k =>
      (lsFieldByName lv k).bind fun v => if v = "" then none else some v) = none := by
    rw [List.findSome?_eq_none_iff]
    intro k _
    cases hb : lsFieldByName lv k with
    | none => rfl
    | some v =>
      have hmem : v = "" := by
        rw [lsFieldByName] at hb
        cases hfind : lv.find? (fun f => f.1 == k) with
        | none => rw [hfind] at hb; cases hb
        | some f =>
          rw [hfind] at hb
          have : f.2 = v := by simpa using hb
          exact this ▸ hall f (List.mem_of_find?_eq_some hfind)
      simp [hmem]
  have h2 : (lv.find? fun f => !(f.2 == "")) = none := by
    rw [List.find?_eq_none]
    intro f hf
    simp [hall f hf]
  rw [h1, h2] at h
  simp at h

theorem extractFlatLocaleKeys_found_not_nil (ps : RawProps) (baseName : String)
    (loc : GoLoc) (locNames keys : List String)
    (h : (extractFlatLocaleKeys ps baseName loc locNames keys).1 = .p none) :
    (extractFlatLocaleKeys ps baseName loc locNames keys).2 = false := by
  cases loc with
  | s l => simp [extractFlatLocaleKeys] at h
  | p o =>
    cases o with
    | some l => simp [extractFlatLocaleKeys] at h
    | none =>
      by_cases hk : (!hasAnyFlatKey ps (lcFirst baseName) keys) = true
      · rw [extractFlatLocaleKeys]
        dsimp only
        simp [hk]
      · exfalso
        rw [extractFlatLocaleKeys] at h
        dsimp only at h
        simp [hk] at h

/-- C4: in the unmarshal hook, whenever the flat-key extraction finds at
least one flat locale key `<baseName>_<lcFirst(localeKey)>` with a non-nil
value, the companion is exactly the extraction result (populated from the
flat values) and the base field — whatever its previous value, zero or not,
nil pointer or not — is overwritten with the spec's resolution: the first
locale-key field in preference order holding a non-zero value, falling back
to the first non-zero companion field in declaration order. -/
theorem localesUnmarshalPair_flat_keys_authoritative
    (ps : RawProps) (baseName : String) (base : GoStr) (loc : GoLoc)
    (locNames keys : List String) (r : String)
    (hfound : (extractFlatLocaleKeys ps baseName loc locNames keys).2 = true)
    (hres : specLocaleResolution
        (locStruct (extractFlatLocaleKeys ps baseName loc locNames keys).1) keys
      = some r) :
    localesUnmarshalPair (some ps) baseName base loc locNames keys
      = (baseOverwritten base r,
         (extractFlatLocaleKeys ps baseName loc locNames keys).1) := by
  rcases hE : extractFlatLocaleKeys ps baseName loc locNames keys with ⟨loc1, found⟩
  rw [hE] at hfound hres
  dsimp only at hfound hres
  subst hfound
  simp only [localesUnmarshalPair]
  rw [hE]
  dsimp only
  have hnotnil : loc1 ≠ .p none := by
    intro hnil
    have hf := extractFlatLocaleKeys_found_not_nil ps baseName loc locNames keys
      (by rw [hE, hnil])
    rw [hE] at hf
    simp at hf
  cases base with
  | s v =>
    cases loc1 with
    | s l =>
      simp only [locStruct] at hres
      simp [unmarshalStep3, setBaseFromLocale_of_spec v l keys r hres,
        rebuildB, rebuildL, baseOverwritten]
    | p ol =>
      cases ol with
      | none => exact absurd rfl hnotnil
      | some l =>
        simp only [locStruct] at hres
        simp [unmarshalStep3, setBaseFromLocale_of_spec v l keys r hres,
          rebuildB, rebuildL, baseOverwritten]
  | p ob =>
    cases ob with
    | some v =>
      cases loc1 with
      | s l =>
        simp only [locStruct] at hres
        simp [unmarshalStep3, setBaseFromLocale_of_spec v l keys r hres,
          rebuildB, rebuildL, baseOverwritten]
      | p ol =>
        cases ol with
        | none => exact absurd rfl hnotnil
        | some l =>
          simp only [locStruct] at hres
          simp [unmarshalStep3, setBaseFromLocale_of_spec v l keys r hres,
            rebuildB, rebuildL, baseOverwritten]
    | none =>
      cases loc1 with
      | s l =>
        simp only [locStruct] at hres
        have hz : lsIsZero l = false := specLocaleResolution_nonZero l keys r hres
        simp [hz, unmarshalStep3, setBaseFromLocale_of_spec "" l keys r hres,
          rebuildB, rebuildL, baseOverwritten]
      | p ol =>
        cases ol with
        | none => exact absurd rfl hnotnil
        | some l =>
          simp only [locStruct] at hres
          have hz : lsIsZero l = false := specLocaleResolution_nonZero l keys r hres
          simp [hz, unmarshalStep3, setBaseFromLocale_of_spec "" l keys r hres,
            rebuildB, rebuildL, baseOverwritten]

/-- Witness for C4: flat keys `{name_enUS: "US", name_enAU: "AU"}` with
preference `[EnAU, EnUS]` set both companion fields and make the base
`"AU"`. -/
theorem localesUnmarshalPair_flat_keys_authoritative_witness :
    localesUnmarshalPair
        (some [("name_enUS", some "US"), ("name_enAU", some "AU")]) "Name"
        (.s "") (.s [("EnUS", ""), ("EnAU", "")])
        ["EnUS", "EnAU"] ["EnAU", "EnUS"]
      = (.s "AU", .s [("EnUS", "US"), ("EnAU", "AU")]) := by
  have h := localesUnmarshalPair_flat_keys_authoritative
      [("name_enUS", some "US"), ("name_enAU", some "AU")] "Name"
      (.s "") (.s [("EnUS", ""), ("EnAU", "")])
      ["EnUS", "EnAU"] ["EnAU", "EnUS"] "AU" rfl rfl
  exact h.trans (by rfl)

end Neogo
